import Mathlib

/-!
Verification of the currency exchange rates client
(`script.js` main-page logic and `sw.js` service worker).

Rates are modelled as exact rationals; rate tables and caches as
association lists with the lookup semantics of JavaScript object
property access (first binding wins, insertion overwrites).
-/

namespace Exchange

/-- A rate table: currency code mapped to rate, as a JS object. -/
abbrev RateTable := List (String × ℚ)

/-- The per-base snapshot store `AppState.previousRates`. -/
abbrev SnapshotStore := List (String × RateTable)

/-- A change set: currency code mapped to signed percentage change. -/
abbrev ChangeSet := List (String × ℚ)

/-- CONFIG.TARGET_CURRENCIES from the source. -/
def TARGET_CURRENCIES : List String :=
  ["USD", "EUR", "GBP", "JPY", "CHF", "CAD", "AUD", "CNY"]

/-- JS object property access `obj[c]`: the first binding for the key,
if any. -/
def alookup {β : Type} : List (String × β) → String → Option β
  | [], _ => none
  | (k, v) :: l, c => if c = k then some v else alookup l c

/-- JS truthiness of `table[c]` for a numeric property: the key is
present and its value is nonzero. -/
def rateTruthy (t : RateTable) (c : String) : Bool :=
  match alookup t c with
  | some r => r ≠ 0
  | none => false

/-- The rate stored for `c`, defaulting to 0 (only used under a
`rateTruthy` guard in the source). -/
def rateGet (t : RateTable) (c : String) : ℚ :=
  (alookup t c).getD 0

/-- The body of the forEach in `calculateRealTimeChanges`:
`change = ((currentRate - previousRate) / previousRate) * 100`,
then `changes[currency] = change` if `Math.abs(change) > 0.001`,
else `changes[currency] = 0`. -/
def changeEntry (currentRate previousRate : ℚ) : ℚ :=
  let change := (currentRate - previousRate) / previousRate * 100
  if |change| > 1 / 1000 then change else 0

/-- The guard of the forEach in `calculateRealTimeChanges`:
`currency !== baseCurrency && currentRates[currency] && previous[currency]`. -/
def changeGuard (currentRates previous : RateTable) (base c : String) : Bool :=
  c ≠ base && rateTruthy currentRates c && rateTruthy previous c

/-- The change set built by the forEach over `CONFIG.TARGET_CURRENCIES`
when a previous table exists. -/
def changesFor (currentRates previous : RateTable) (base : String) : ChangeSet :=
  (TARGET_CURRENCIES.filter (changeGuard currentRates previous base)).map
    (fun c => (c, changeEntry (rateGet currentRates c) (rateGet previous c)))

/-- The change set computed from the (possibly absent) previous table:
`const previous = AppState.previousRates[baseCurrency]; if (previous) ...`. -/
def changesFromPrev (currentRates : RateTable) (base : String) :
    Option RateTable → ChangeSet
  | none => []
  | some previous => changesFor currentRates previous base

/-- Remove every binding of `k` from an association list. -/
def eraseKey {β : Type} (k : String) : List (String × β) → List (String × β)
  | [] => []
  | (k', v) :: l => if k' = k then eraseKey k l else (k', v) :: eraseKey k l

/-- Overwrite the binding of `k` in an association list
(JS property assignment `obj[k] = v`). -/
def alistSet {β : Type} (k : String) (v : β) (l : List (String × β)) :
    List (String × β) :=
  (k, v) :: eraseKey k l

/-- `calculateRealTimeChanges(currentRates, baseCurrency)` from the source:
returns the change set and, as its side effect on `AppState.previousRates`,
stores a copy of `currentRates` under `baseCurrency`. -/
def calculateRealTimeChanges (currentRates : RateTable) (base : String)
    (previousRates : SnapshotStore) : ChangeSet × SnapshotStore :=
  (changesFromPrev currentRates base (alookup previousRates base),
   alistSet base currentRates previousRates)

/-- The mutable fields of `AppState` that the fetch lifecycle touches.
`autoRefreshOn` abstracts `AppState.autoRefreshInterval` (truthy iff a
timer handle is stored); `lastSuccessfulUpdate` holds an abstract
timestamp in place of a `Date`. -/
structure AppState where
  previousRates : SnapshotStore
  currentRates : RateTable
  currentBaseCurrency : String
  isOnline : Bool
  lastSuccessfulUpdate : Option Nat
  autoRefreshOn : Bool
  isFetching : Bool
deriving DecidableEq, Repr

/-- The value of the `rates` field of a parsed JSON response body:
either an object (a rate table) or some non-object value, for which
`typeof data.rates !== 'object'` or `!data.rates` rejects it. -/
inductive RatesField where
  | table (t : RateTable)
  | notATable
deriving DecidableEq, Repr

/-- A parsed JSON response body, as far as the source inspects it:
only the optional `rates` field matters. The body `\x7b\x7d` is
`Payload.mk none`. -/
structure Payload where
  rates : Option RatesField
deriving DecidableEq, Repr

/-- The validation `!data.rates || typeof data.rates !== 'object'`:
returns the rate table exactly when the field is present and an object. -/
def validRates (p : Payload) : Option RateTable :=
  match p.rates with
  | some (RatesField.table t) => some t
  | _ => none

/-- The outcome of the awaited network interaction inside the try block:
abort by the 10s timeout, a non-2xx response, a transport failure, or a
2xx response with a parsed JSON body. -/
inductive FetchOutcome where
  | timeout
  | httpError (status : Nat)
  | networkFailure
  | ok (body : Payload)
deriving DecidableEq, Repr

/-- The result `fetchExchangeRates` reports (via early return, the
success path, or `handleFetchError`). -/
inductive SyncResult where
  | busy
  | success (changes : ChangeSet)
  | errTimeout
  | errApi (status : Nat)
  | errInvalidResponse
  | errNetwork
deriving DecidableEq, Repr

/-- Whether a sync result is one of the error outcomes handled by
`handleFetchError`. -/
def SyncResult.isErr : SyncResult → Bool
  | SyncResult.busy => false
  | SyncResult.success _ => false
  | _ => true

/-- `fetchExchangeRates()` from the source, as a state transformer over
`AppState` given the network outcome and the current time. If
`AppState.isFetching` it returns immediately; otherwise it sets the
busy flag, runs the try block for `AppState.currentBaseCurrency`, and
the finally block clears the busy flag on every path. On success it
computes the change set (which overwrites the snapshot for the base),
sets `lastSuccessfulUpdate`, `isOnline` and `currentRates`, and starts
auto-refresh if it is not running. -/
def fetchExchangeRates (st : AppState) (outcome : FetchOutcome) (now : Nat) :
    SyncResult × AppState :=
  if st.isFetching then
    (SyncResult.busy, st)
  else
    let base := st.currentBaseCurrency
    match outcome with
    | FetchOutcome.timeout => (SyncResult.errTimeout, { st with isFetching := false })
    | FetchOutcome.httpError s => (SyncResult.errApi s, { st with isFetching := false })
    | FetchOutcome.networkFailure => (SyncResult.errNetwork, { st with isFetching := false })
    | FetchOutcome.ok body =>
      match validRates body with
      | none => (SyncResult.errInvalidResponse, { st with isFetching := false })
      | some rates =>
        let res := calculateRealTimeChanges rates base st.previousRates
        (SyncResult.success res.1,
         { st with
             previousRates := res.2
             lastSuccessfulUpdate := some now
             isOnline := true
             currentRates := rates
             autoRefreshOn := true
             isFetching := false })

/-- One tick of the interval installed by `startAutoRefresh()`:
`if (AppState.isOnline && !AppState.isFetching) fetchExchangeRates()`.
Returns `none` when the tick skips the sync. -/
def autoRefreshTick (st : AppState) (outcome : FetchOutcome) (now : Nat) :
    Option SyncResult × AppState :=
  if st.isOnline && !st.isFetching then
    let r := fetchExchangeRates st outcome now
    (some r.1, r.2)
  else
    (none, st)

namespace Sw

/-- The STATIC_ASSETS list from `sw.js`: note that it includes one URL
of the rate API, precached at install time. -/
def STATIC_ASSETS : List String :=
  ["/", "/index.html", "/style.css", "/script.js",
   "https://api.frankfurter.app/latest?from=EUR"]

/-- Whether `p` occurs at the start of `l`. -/
def startsWith (p l : List Char) : Bool :=
  match p, l with
  | [], _ => true
  | _ :: _, [] => false
  | a :: p, b :: l => a == b && startsWith p l

/-- Whether `p` occurs somewhere inside `l` (`String.prototype.includes`). -/
def hasSubstr (p : List Char) : List Char → Bool
  | [] => startsWith p []
  | b :: l => startsWith p (b :: l) || hasSubstr p l

/-- The request classification of the fetch handler:
`request.url.includes('frankfurter.app')`. -/
def isApiRequest (url : String) : Bool :=
  hasSubstr "frankfurter.app".toList url.toList

/-- The state of the two cache partitions: the static partition
(CACHE_NAME) and the API partition (API_CACHE_NAME). Stored responses
are abstracted as natural numbers. Request identity is the URL. -/
structure CacheState where
  staticCache : List (String × Nat)
  apiCache : List (String × Nat)
deriving DecidableEq, Repr

/-- Before the service worker has stored anything, both partitions are
empty. -/
def initialCache : CacheState := ⟨[], []⟩

/-- The install handler: `caches.open(CACHE_NAME).then(cache =>
cache.addAll(STATIC_ASSETS))`; `resps` gives the response the network
returns for each precached asset. -/
def swInstall (resps : String → Nat) (st : CacheState) : CacheState :=
  { st with staticCache := STATIC_ASSETS.map (fun u => (u, resps u)) }

/-- `caches.match(request)`: searches every partition, in cache
creation order — the static partition is created at install, before
any fetch event can populate the API partition. -/
def cachesMatch (st : CacheState) (url : String) : Option Nat :=
  match Exchange.alookup st.staticCache url with
  | some r => some r
  | none => Exchange.alookup st.apiCache url

/-- The fetch handler of `sw.js`. `net` is the outcome of `fetch(request)`
(`none` for a rejected promise). API-classified requests are
network-first: a live response is cloned into the API partition and
returned; on failure the handler responds with `caches.match(request)`.
Other requests are cache-first: a `caches.match` hit is returned without
touching the network, otherwise the live outcome is returned. The
response component is `none` when the handler produces no response. -/
def handleFetch (st : CacheState) (url : String) (net : Option Nat) :
    Option Nat × CacheState :=
  if isApiRequest url then
    match net with
    | some resp =>
      (some resp, { st with apiCache := Exchange.alistSet url resp st.apiCache })
    | none => (cachesMatch st url, st)
  else
    match cachesMatch st url with
    | some r => (some r, st)
    | none => (net, st)

/-- The cache states the service worker can reach: the empty initial
state, then any interleaving of install events and fetch events. -/
inductive Reachable : CacheState → Prop where
  | init : Reachable initialCache
  | install (resps : String → Nat) (st : CacheState) :
      Reachable st → Reachable (swInstall resps st)
  | fetch (url : String) (net : Option Nat) (st : CacheState) :
      Reachable st → Reachable (handleFetch st url net).2

/-- The API URL that STATIC_ASSETS precaches. -/
def apiUrlEUR : String := "https://api.frankfurter.app/latest?from=EUR"

/-- A fixed assignment of network responses to the precached assets. -/
def sampleResps : String → Nat := fun _ => 7

/-- The cache state right after the install event. -/
def installedState : CacheState := swInstall sampleResps initialCache

/-- The cache state after install followed by one successful fetch of
the precached API URL. -/
def sharedKeyState : CacheState :=
  (handleFetch installedState apiUrlEUR (some 9)).2

end Sw

/-! Helper lemmas about association-list lookup. -/

theorem alookup_mem {β : Type} {l : List (String × β)} {c : String} {v : β}
    (h : alookup l c = some v) : (c, v) ∈ l := by
  induction l with
  | nil => simp [alookup] at h
  | cons a l ih =>
    obtain ⟨k, w⟩ := a
    by_cases hck : c = k
    · subst hck
      simp [alookup] at h
      simp [h]
    · simp [alookup, hck] at h
      exact List.mem_cons_of_mem _ (ih h)

theorem rateTruthy_iff {t : RateTable} {c : String} :
    rateTruthy t c = true ↔ ∃ r, alookup t c = some r ∧ r ≠ 0 := by
  unfold rateTruthy
  cases h : alookup t c with
  | none => simp
  | some r => simp [h]

theorem alookup_eraseKey_ne {β : Type} (l : List (String × β)) {c k : String}
    (h : c ≠ k) : alookup (eraseKey k l) c = alookup l c := by
  induction l with
  | nil => rfl
  | cons a l ih =>
    obtain ⟨k', w⟩ := a
    by_cases hk : k' = k
    · subst hk
      have hck : c = k' ↔ False := by simp [h]
      simp [eraseKey, alookup, hck, ih]
    · by_cases hck : c = k'
      · subst hck
        simp [eraseKey, hk, alookup]
      · simp [eraseKey, hk, alookup, hck, ih]

theorem alookup_alistSet_self {β : Type} (k : String) (v : β)
    (l : List (String × β)) : alookup (alistSet k v l) k = some v := by
  simp [alistSet, alookup]

theorem alookup_alistSet_ne {β : Type} (k : String) (v : β)
    (l : List (String × β)) {c : String} (h : c ≠ k) :
    alookup (alistSet k v l) c = alookup l c := by
  simp [alistSet, alookup, h, alookup_eraseKey_ne l h]

theorem alookup_map_mk (l : List String) (f : String → ℚ) (c : String) :
    alookup (l.map (fun x => (x, f x))) c =
      if c ∈ l then some (f c) else none := by
  induction l with
  | nil => rfl
  | cons a l ih =>
    by_cases hca : c = a
    · subst hca
      simp [alookup]
    · simp [alookup, hca, ih]

theorem mem_changesFor {cur prev : RateTable} {base c : String} {v : ℚ}
    (h : (c, v) ∈ changesFor cur prev base) :
    c ∈ TARGET_CURRENCIES ∧ changeGuard cur prev base c = true ∧
      v = changeEntry (rateGet cur c) (rateGet prev c) := by
  unfold changesFor at h
  obtain ⟨x, hx, hxv⟩ := List.mem_map.mp h
  obtain ⟨hmem, hguard⟩ := List.mem_filter.mp hx
  obtain ⟨rfl, rfl⟩ := Prod.mk.injEq .. ▸ hxv
  exact ⟨hmem, hguard, rfl⟩

/-! The claims. -/

/-- C2: invoking the sync while a session is active (the busy flag
`AppState.isFetching` is set) returns immediately with the Busy outcome
and leaves the whole application state unchanged. -/
theorem claim_C2_theorem (st : AppState) (o : FetchOutcome) (now : Nat)
    (h : st.isFetching = true) :
    fetchExchangeRates st o now = (SyncResult.busy, st) := by
  simp [fetchExchangeRates, h]

/-- Witness for C2 at a concrete busy state. -/
theorem claim_C2_witness :
    fetchExchangeRates ⟨[], [], "EUR", true, none, false, true⟩
        FetchOutcome.timeout 0 =
      (SyncResult.busy, ⟨[], [], "EUR", true, none, false, true⟩) :=
  claim_C2_theorem _ _ _ rfl

theorem result_ne_busy (st : AppState) (o : FetchOutcome) (now : Nat)
    (h : st.isFetching = false) :
    (fetchExchangeRates st o now).1 ≠ SyncResult.busy := by
  cases o with
  | timeout => simp [fetchExchangeRates, h]
  | httpError s => simp [fetchExchangeRates, h]
  | networkFailure => simp [fetchExchangeRates, h]
  | ok body =>
    cases hv : validRates body with
    | none => simp [fetchExchangeRates, h, hv]
    | some rates => simp [fetchExchangeRates, h, hv]

/-- C3: starting a sync from a non-busy state, the busy flag is cleared
in the final state on every completion path; on every error outcome the
snapshot store is untouched; and a subsequent sync on the resulting
state is never rejected as busy. -/
theorem claim_C3_theorem (st : AppState) (o : FetchOutcome) (now : Nat)
    (h : st.isFetching = false) :
    (fetchExchangeRates st o now).2.isFetching = false ∧
    ((fetchExchangeRates st o now).1.isErr = true →
      (fetchExchangeRates st o now).2.previousRates = st.previousRates) ∧
    (∀ o2 now2,
      (fetchExchangeRates (fetchExchangeRates st o now).2 o2 now2).1 ≠
        SyncResult.busy) := by
  have hmain :
      (fetchExchangeRates st o now).2.isFetching = false ∧
      ((fetchExchangeRates st o now).1.isErr = true →
        (fetchExchangeRates st o now).2.previousRates = st.previousRates) := by
    cases o with
    | timeout => simp [fetchExchangeRates, h]
    | httpError s => simp [fetchExchangeRates, h]
    | networkFailure => simp [fetchExchangeRates, h]
    | ok body =>
      cases hv : validRates body with
      | none => simp [fetchExchangeRates, h, hv]
      | some rates => simp [fetchExchangeRates, h, hv, SyncResult.isErr]
  exact ⟨hmain.1, hmain.2, fun o2 now2 => result_ne_busy _ o2 now2 hmain.1⟩

/-- Witness for C3 on a timed-out sync from a concrete idle state. -/
theorem claim_C3_witness :
    (fetchExchangeRates ⟨[], [], "EUR", true, none, false, false⟩
        FetchOutcome.timeout 0).2.isFetching = false ∧
    ((fetchExchangeRates ⟨[], [], "EUR", true, none, false, false⟩
        FetchOutcome.timeout 0).1.isErr = true →
      (fetchExchangeRates ⟨[], [], "EUR", true, none, false, false⟩
          FetchOutcome.timeout 0).2.previousRates = []) ∧
    (∀ o2 now2,
      (fetchExchangeRates
          (fetchExchangeRates ⟨[], [], "EUR", true, none, false, false⟩
            FetchOutcome.timeout 0).2 o2 now2).1 ≠ SyncResult.busy) :=
  claim_C3_theorem ⟨[], [], "EUR", true, none, false, false⟩
    FetchOutcome.timeout 0 rfl

/-- C4: a response body with no rates field, or whose rates value is
not a table, makes the sync fail with the invalid-response error and
leaves the snapshot store untouched. -/
theorem claim_C4_theorem (st : AppState) (p : Payload) (now : Nat)
    (h : st.isFetching = false)
    (hp : p.rates = none ∨ p.rates = some RatesField.notATable) :
    (fetchExchangeRates st (FetchOutcome.ok p) now).1 =
      SyncResult.errInvalidResponse ∧
    (fetchExchangeRates st (FetchOutcome.ok p) now).2.previousRates =
      st.previousRates := by
  have hv : validRates p = none := by
    rcases hp with hp | hp <;> simp [validRates, hp]
  simp [fetchExchangeRates, h, hv]

/-- Witness for C4 on the empty response body. -/
theorem claim_C4_witness :
    (fetchExchangeRates ⟨[], [], "EUR", true, none, false, false⟩
        (FetchOutcome.ok ⟨none⟩) 0).1 = SyncResult.errInvalidResponse ∧
    (fetchExchangeRates ⟨[], [], "EUR", true, none, false, false⟩
        (FetchOutcome.ok ⟨none⟩) 0).2.previousRates = [] :=
  claim_C4_theorem ⟨[], [], "EUR", true, none, false, false⟩ ⟨none⟩ 0 rfl
    (Or.inl rfl)

/-- C8: a tick of the auto-refresh interval invokes the sync exactly
when the app is online and no fetch is in flight; in every other state
the tick leaves the state unchanged and performs no sync. -/
theorem claim_C8_theorem (st : AppState) (o : FetchOutcome) (now : Nat) :
    (st.isOnline = true ∧ st.isFetching = false →
      autoRefreshTick st o now =
        (some (fetchExchangeRates st o now).1,
         (fetchExchangeRates st o now).2)) ∧
    (st.isOnline = false ∨ st.isFetching = true →
      autoRefreshTick st o now = (none, st)) := by
  constructor
  · rintro ⟨h1, h2⟩
    simp [autoRefreshTick, h1, h2]
  · rintro (h | h) <;> simp [autoRefreshTick, h]

/-- Witness for C8: an offline tick is a no-op. -/
theorem claim_C8_witness :
    autoRefreshTick ⟨[], [], "EUR", false, none, false, false⟩
        FetchOutcome.timeout 0 =
      (none, ⟨[], [], "EUR", false, none, false, false⟩) :=
  (claim_C8_theorem ⟨[], [], "EUR", false, none, false, false⟩
      FetchOutcome.timeout 0).2 (Or.inl rfl)

/-- C9: a sync for a base currency with no previously stored snapshot
produces an empty change set. -/
theorem claim_C9_theorem (cur : RateTable) (base : String)
    (store : SnapshotStore) (h : alookup store base = none) :
    (calculateRealTimeChanges cur base store).1 = [] := by
  simp [calculateRealTimeChanges, h, changesFromPrev]

/-- Witness for C9 on an empty store. -/
theorem claim_C9_witness :
    (calculateRealTimeChanges [("USD", 1)] "USD" []).1 = [] :=
  claim_C9_theorem _ _ _ rfl

theorem changeEntry_eq (a b : ℚ) :
    changeEntry a b =
      if |(a - b) / b * 100| ≤ 1 / 1000 then 0 else (a - b) / b * 100 := by
  unfold changeEntry
  by_cases h : |(a - b) / b * 100| ≤ 1 / 1000
  · rw [if_neg (not_lt.mpr h), if_pos h]
  · rw [if_pos (lt_of_not_le h), if_neg h]

theorem alookup_changesFor (cur prev : RateTable) (base c : String) :
    alookup (changesFor cur prev base) c =
      if c ∈ TARGET_CURRENCIES ∧ changeGuard cur prev base c = true
      then some (changeEntry (rateGet cur c) (rateGet prev c))
      else none := by
  unfold changesFor
  rw [alookup_map_mk]
  by_cases h : c ∈ TARGET_CURRENCIES.filter (changeGuard cur prev base)
  · rw [if_pos h, if_pos (List.mem_filter.mp h)]
  · rw [if_neg h, if_neg fun hc => h (List.mem_filter.mpr hc)]

/-- C1 counterexample: the currency SEK has a nonzero rate in both the
current table and the stored previous table, yet the computed change
set does not map it at all, because the calculator only considers the
currencies of CONFIG.TARGET_CURRENCIES. -/
theorem claim_C1_counterexample :
    alookup [("SEK", (2 : ℚ))] "SEK" = some 2 ∧
    alookup [("SEK", (1 : ℚ))] "SEK" = some 1 ∧
    alookup (calculateRealTimeChanges [("SEK", (2 : ℚ))] "EUR"
        [("EUR", [("SEK", (1 : ℚ))])]).1 "SEK" = none := by
  refine ⟨by decide, by decide, by decide⟩

/-- C1 as amended: when a previous snapshot is stored for the base, the
change set maps exactly the currencies of CONFIG.TARGET_CURRENCIES
other than the base currency that have a nonzero rate recorded in both
tables, each to ((current - previous) / previous) * 100, with values
of magnitude at most 0.001 (not strictly below 0.001) normalized to 0;
every other currency code is absent from the change set. -/
theorem claim_C1_theorem (cur : RateTable) (base : String)
    (store : SnapshotStore) (prev : RateTable) (c : String)
    (h : alookup store base = some prev) :
    alookup (calculateRealTimeChanges cur base store).1 c =
      if c ∈ TARGET_CURRENCIES ∧ c ≠ base ∧ rateTruthy cur c = true ∧
          rateTruthy prev c = true
      then some
        (if |(rateGet cur c - rateGet prev c) / rateGet prev c * 100| ≤ 1 / 1000
         then 0
         else (rateGet cur c - rateGet prev c) / rateGet prev c * 100)
      else none := by
  simp only [calculateRealTimeChanges, h, changesFromPrev]
  rw [alookup_changesFor]
  have hg : (c ∈ TARGET_CURRENCIES ∧ changeGuard cur prev base c = true) ↔
      (c ∈ TARGET_CURRENCIES ∧ c ≠ base ∧ rateTruthy cur c = true ∧
        rateTruthy prev c = true) := by
    simp [changeGuard, and_assoc]
  rw [if_congr hg (by rw [changeEntry_eq]) rfl]

/-- Witness for C1 at a concrete doubled USD rate. -/
theorem claim_C1_witness :
    alookup (calculateRealTimeChanges [("USD", (2 : ℚ))] "EUR"
        [("EUR", [("USD", (1 : ℚ))])]).1 "USD" = some 100 := by
  rw [claim_C1_theorem [("USD", (2 : ℚ))] "EUR" [("EUR", [("USD", (1 : ℚ))])]
      [("USD", (1 : ℚ))] "USD" (by decide)]
  norm_num [TARGET_CURRENCIES, rateTruthy, rateGet, alookup]
  intro h
  exact absurd h (by decide)

/-- C5 counterexample: computing the change set does mutate the
snapshot store — starting from an empty store, the store afterwards
holds an entry for the base currency. -/
theorem claim_C5_counterexample :
    alookup ([] : SnapshotStore) "EUR" = none ∧
    alookup (calculateRealTimeChanges [("USD", (1 : ℚ))] "EUR" []).2 "EUR" =
      some [("USD", 1)] := by
  refine ⟨rfl, by decide⟩

/-- C5 as amended: the change-set component is a function of the
current table and the stored previous snapshot for the base alone (any
two stores agreeing on the base yield the same change set), and the
calculator writes the snapshot store: it replaces the entry for the
base currency with the current table and leaves every other entry
unchanged. -/
theorem claim_C5_theorem (cur : RateTable) (base : String)
    (store store2 : SnapshotStore) :
    (alookup store base = alookup store2 base →
      (calculateRealTimeChanges cur base store).1 =
        (calculateRealTimeChanges cur base store2).1) ∧
    alookup (calculateRealTimeChanges cur base store).2 base = some cur ∧
    (∀ c, c ≠ base →
      alookup (calculateRealTimeChanges cur base store).2 c =
        alookup store c) := by
  refine ⟨fun h => ?_, ?_, fun c hc => ?_⟩
  · simp only [calculateRealTimeChanges, h]
  · exact alookup_alistSet_self base cur store
  · exact alookup_alistSet_ne base cur store hc

/-- Witness for C5 on concrete stores agreeing at the base. -/
theorem claim_C5_witness :
    (calculateRealTimeChanges [("USD", (2 : ℚ))] "EUR"
        [("EUR", [("USD", (1 : ℚ))])]).1 =
      (calculateRealTimeChanges [("USD", (2 : ℚ))] "EUR"
        [("EUR", [("USD", (1 : ℚ))]), ("GBP", [])]).1 ∧
    alookup (calculateRealTimeChanges [("USD", (2 : ℚ))] "EUR"
        [("EUR", [("USD", (1 : ℚ))])]).2 "EUR" = some [("USD", 2)] ∧
    alookup (calculateRealTimeChanges [("USD", (2 : ℚ))] "EUR"
        [("EUR", [("USD", (1 : ℚ))])]).2 "GBP" =
      alookup [("EUR", [("USD", (1 : ℚ))])] "GBP" :=
  ⟨(claim_C5_theorem [("USD", (2 : ℚ))] "EUR" [("EUR", [("USD", (1 : ℚ))])]
      [("EUR", [("USD", (1 : ℚ))]), ("GBP", [])]).1 (by decide),
   (claim_C5_theorem [("USD", (2 : ℚ))] "EUR" [("EUR", [("USD", (1 : ℚ))])]
      []).2.1,
   (claim_C5_theorem [("USD", (2 : ℚ))] "EUR" [("EUR", [("USD", (1 : ℚ))])]
      []).2.2 "GBP" (by decide)⟩

/-- C10: every currency appearing in a computed change set has a
nonzero rate recorded in both the previous snapshot and the current
table, so the division by the previous rate is never a division by
zero. -/
theorem claim_C10_theorem (cur : RateTable) (base : String)
    (store : SnapshotStore) (c : String) (v : ℚ)
    (h : (c, v) ∈ (calculateRealTimeChanges cur base store).1) :
    ∃ prev, alookup store base = some prev ∧
      (∃ p, alookup prev c = some p ∧ p ≠ 0) ∧
      (∃ q, alookup cur c = some q ∧ q ≠ 0) := by
  unfold calculateRealTimeChanges at h
  cases hs : alookup store base with
  | none => rw [hs] at h; simp [changesFromPrev] at h
  | some prev =>
    rw [hs] at h
    obtain ⟨-, hguard, -⟩ := mem_changesFor h
    unfold changeGuard at hguard
    simp only [Bool.and_eq_true] at hguard
    obtain ⟨⟨-, hcur⟩, hprev⟩ := hguard
    exact ⟨prev, rfl, rateTruthy_iff.mp hprev, rateTruthy_iff.mp hcur⟩

/-- Witness for C10 at a concrete change-set entry. -/
theorem claim_C10_witness :
    ∃ prev, alookup [("USD", [("EUR", (1 : ℚ))])] "USD" = some prev ∧
      (∃ p, alookup prev "EUR" = some p ∧ p ≠ 0) ∧
      (∃ q, alookup [("EUR", (2 : ℚ))] "EUR" = some q ∧ q ≠ 0) :=
  claim_C10_theorem [("EUR", 2)] "USD" [("USD", [("EUR", 1)])] "EUR" 100
    (by
      have hs : alookup [("USD", [("EUR", (1 : ℚ))])] "USD" =
          some [("EUR", 1)] := by decide
      simp only [calculateRealTimeChanges, hs, changesFromPrev, changesFor]
      refine List.mem_map.mpr ⟨"EUR", ?_, ?_⟩
      · decide
      · norm_num [changeEntry, rateGet, alookup])

theorem mem_of_mem_eraseKey {β : Type} {k : String} {l : List (String × β)}
    {p : String × β} (h : p ∈ eraseKey k l) : p ∈ l := by
  induction l with
  | nil => simp [eraseKey] at h
  | cons a l ih =>
    obtain ⟨k', v⟩ := a
    by_cases hk : k' = k
    · simp only [eraseKey, if_pos hk] at h
      exact List.mem_cons_of_mem _ (ih h)
    · simp only [eraseKey, if_neg hk] at h
      rcases List.mem_cons.mp h with h | h
      · exact h ▸ List.mem_cons_self _ _
      · exact List.mem_cons_of_mem _ (ih h)

theorem static_keys_of_reachable {st : Sw.CacheState} (h : Sw.Reachable st) :
    ∀ k v, (k, v) ∈ st.staticCache → k ∈ Sw.STATIC_ASSETS := by
  induction h with
  | init => intro k v hm; simp [Sw.initialCache] at hm
  | install resps st _ _ =>
    intro k v hm
    simp only [Sw.swInstall] at hm
    obtain ⟨u, hu, huv⟩ := List.mem_map.mp hm
    exact (Prod.mk.injEq .. ▸ huv).1 ▸ hu
  | fetch url net st _ ih =>
    intro k v hm
    by_cases hapi : Sw.isApiRequest url = true
    · cases net with
      | some resp =>
        simp only [Sw.handleFetch, hapi, if_true] at hm
        exact ih k v hm
      | none =>
        simp only [Sw.handleFetch, hapi, if_true] at hm
        exact ih k v hm
    · cases hcm : Sw.cachesMatch st url with
      | some r =>
        simp only [Sw.handleFetch, hapi, if_false, hcm] at hm
        exact ih k v hm
      | none =>
        simp only [Sw.handleFetch, hapi, if_false, hcm] at hm
        exact ih k v hm

theorem api_keys_of_reachable {st : Sw.CacheState} (h : Sw.Reachable st) :
    ∀ k v, (k, v) ∈ st.apiCache → Sw.isApiRequest k = true := by
  induction h with
  | init => intro k v hm; simp [Sw.initialCache] at hm
  | install resps st _ ih =>
    intro k v hm
    simp only [Sw.swInstall] at hm
    exact ih k v hm
  | fetch url net st _ ih =>
    intro k v hm
    by_cases hapi : Sw.isApiRequest url = true
    · cases net with
      | some resp =>
        simp only [Sw.handleFetch, hapi, if_true] at hm
        rcases List.mem_cons.mp hm with hm | hm
        · exact (Prod.mk.injEq .. ▸ hm).1 ▸ hapi
        · exact ih k v (mem_of_mem_eraseKey hm)
      | none =>
        simp only [Sw.handleFetch, hapi, if_true] at hm
        exact ih k v hm
    · cases hcm : Sw.cachesMatch st url with
      | some r =>
        simp only [Sw.handleFetch, hapi, if_false, hcm] at hm
        exact ih k v hm
      | none =>
        simp only [Sw.handleFetch, hapi, if_false, hcm] at hm
        exact ih k v hm

/-- C6 counterexample: right after install the API partition holds no
entry for the precached API URL, so by the claim a network failure on
that request should propagate; instead the handler answers with the
entry the install step put into the static partition. -/
theorem claim_C6_counterexample :
    Sw.Reachable Sw.installedState ∧
    Sw.isApiRequest Sw.apiUrlEUR = true ∧
    alookup Sw.installedState.apiCache Sw.apiUrlEUR = none ∧
    (Sw.handleFetch Sw.installedState Sw.apiUrlEUR none).1 = some 7 :=
  ⟨Sw.Reachable.install Sw.sampleResps Sw.initialCache Sw.Reachable.init,
   by decide, by decide, by decide⟩

/-- C6 as amended: on network failure the handler falls back to a
lookup across both partitions with the static partition searched
first; therefore, whenever the static partition has no entry for the
request, it returns the most recent API-partition entry when one
exists and produces no response (the failure surfaces) when none
exists, the state being left unchanged. -/
theorem claim_C6_theorem (st : Sw.CacheState) (url : String)
    (hapi : Sw.isApiRequest url = true)
    (hstatic : alookup st.staticCache url = none) :
    (Sw.handleFetch st url none).1 = alookup st.apiCache url ∧
    (Sw.handleFetch st url none).2 = st := by
  simp [Sw.handleFetch, hapi, Sw.cachesMatch, hstatic]

/-- Witness for C6 on a state whose API partition holds the entry. -/
theorem claim_C6_witness :
    (Sw.handleFetch ⟨[], [(Sw.apiUrlEUR, 5)]⟩ Sw.apiUrlEUR none).1 =
      alookup [(Sw.apiUrlEUR, 5)] Sw.apiUrlEUR ∧
    (Sw.handleFetch ⟨[], [(Sw.apiUrlEUR, 5)]⟩ Sw.apiUrlEUR none).2 =
      (⟨[], [(Sw.apiUrlEUR, 5)]⟩ : Sw.CacheState) :=
  claim_C6_theorem ⟨[], [(Sw.apiUrlEUR, 5)]⟩ Sw.apiUrlEUR (by decide) rfl

/-- C7 counterexample: after install and one successful fetch of the
precached API URL, that key is stored in both partitions at once. -/
theorem claim_C7_counterexample :
    Sw.Reachable Sw.sharedKeyState ∧
    alookup Sw.sharedKeyState.staticCache Sw.apiUrlEUR = some 7 ∧
    alookup Sw.sharedKeyState.apiCache Sw.apiUrlEUR = some 9 :=
  ⟨Sw.Reachable.fetch Sw.apiUrlEUR (some 9) Sw.installedState
      (Sw.Reachable.install Sw.sampleResps Sw.initialCache Sw.Reachable.init),
   by decide, by decide⟩

/-- C7 as amended: in every reachable cache state, a key present in
both partitions can only be the precached API URL of STATIC_ASSETS;
all other keys live in at most one partition. -/
theorem claim_C7_theorem (st : Sw.CacheState) (h : Sw.Reachable st)
    (k : String) (hs : alookup st.staticCache k ≠ none)
    (ha : alookup st.apiCache k ≠ none) :
    k = "https://api.frankfurter.app/latest?from=EUR" := by
  obtain ⟨v, hv⟩ : ∃ v, alookup st.staticCache k = some v := by
    cases hval : alookup st.staticCache k with
    | none => exact absurd hval hs
    | some v => exact ⟨v, rfl⟩
  obtain ⟨w, hw⟩ : ∃ w, alookup st.apiCache k = some w := by
    cases hval : alookup st.apiCache k with
    | none => exact absurd hval ha
    | some w => exact ⟨w, rfl⟩
  have h1 : k ∈ Sw.STATIC_ASSETS := static_keys_of_reachable h k v (alookup_mem hv)
  have h2 : Sw.isApiRequest k = true := api_keys_of_reachable h k w (alookup_mem hw)
  simp only [Sw.STATIC_ASSETS, List.mem_cons, List.not_mem_nil,
    or_false] at h1
  rcases h1 with rfl | rfl | rfl | rfl | rfl
  · exact absurd h2 (by decide)
  · exact absurd h2 (by decide)
  · exact absurd h2 (by decide)
  · exact absurd h2 (by decide)
  · rfl

/-- Witness for C7 on the concrete shared-key state. -/
theorem claim_C7_witness :
    Sw.apiUrlEUR = "https://api.frankfurter.app/latest?from=EUR" :=
  claim_C7_theorem Sw.sharedKeyState
    (Sw.Reachable.fetch Sw.apiUrlEUR (some 9) Sw.installedState
      (Sw.Reachable.install Sw.sampleResps Sw.initialCache Sw.Reachable.init))
    Sw.apiUrlEUR (by decide) (by decide)

end Exchange

